import Mathlib

/-!
Verification development for the cloudmodular storage consistency engine.

The definitions below are a shallow embedding of the Python sources:
  * `apps/storage/utils/queries/data_db_query.py` (metadata store),
  * `apps/storage/utils/managers.py` (consistency orchestrator).
The physical store (`DataStorageQuery`), user lookup, permission checker
atoms and schema validation are not part of the provided sources; those
definitions are modelled from the specification and carry a doc comment
saying so.

Strings follow Python semantics where it matters: optional arguments are
tested for truthiness (`0`, `False`, `None`, `""` are falsy), and the SQL
`replace` used by the rename cascade substitutes every occurrence of the
pattern, left to right, non-overlapping.
-/

/-- Characters of a string, used to compute on strings at the list level. -/
def strChars (s : String) : List Char := s.data

/-- Test whether `pre` is a leading segment of `s` (Python `str.startswith`,
SQL `LIKE 'pre%'`). -/
def strStartsWith (s pre : String) : Bool := pre.data.isPrefixOf s.data

/-- Substring occurrence test on character lists: `pat` occurs somewhere in `s`. -/
def containsSub (s pat : List Char) : Bool :=
  pat.isPrefixOf s ||
    match s with
    | [] => false
    | _ :: rest => containsSub rest pat

/-- Substring occurrence test on strings. -/
def containsSubStr (s pat : String) : Bool := containsSub s.data pat.data

/-- Fuel-driven left-to-right, non-overlapping replacement of every occurrence
of `pat` by `rep` in `s` (the semantics of the SQL `replace` function used by
`DataDBQueryUpdator`). Fuel at least `s.length` is always sufficient because
each step consumes at least one character. -/
def listReplaceF : Nat → List Char → List Char → List Char → List Char
  | 0, s, _, _ => s
  | fuel + 1, s, pat, rep =>
    match s with
    | [] => []
    | c :: rest =>
      if pat ≠ [] && pat.isPrefixOf s then
        rep ++ listReplaceF fuel (s.drop pat.length) pat rep
      else
        c :: listReplaceF fuel rest pat rep

/-- String-level replacement of every occurrence of `pat` by `rep`,
left to right, non-overlapping (SQL `replace`). -/
def strReplace (s pat rep : String) : String :=
  String.mk (listReplaceF s.data.length s.data pat.data rep.data)

/-- Substring of `s` after its last slash character (Python
`s.split('/')[-1]`, used by `DataFileCRUDManager.create` on the uploaded
filename). -/
def lastComponent (s : String) : String :=
  String.mk ((s.data.reverse.takeWhile (fun c => c ≠ '/')).reverse)

/-- Leading part of a path up to and including its last slash. -/
def dirPart (s : String) : String :=
  String.mk ((s.data.reverse.dropWhile (fun c => c ≠ '/')).reverse)

/-- Rewrite the leading `pre` of `s` (assumed present) by `rep`:
used by the physical rename to move a whole subtree. -/
def swapLead (s pre rep : String) : String :=
  String.mk (rep.data ++ s.data.drop pre.data.length)

/-- Decimal rendering of a natural number, as Python string interpolation does. -/
def natStr (n : Nat) : String := toString n

/-- Python truthiness of an optional integer argument (`if data_id:`):
`None` and `0` are both falsy. -/
def truthyNat (o : Option Nat) : Bool :=
  match o with
  | some n => n != 0
  | none => false

/-- Error taxonomy of the engine (`core/exc.py` exception classes plus the
`PermissionError` raised by the orchestrator's policy gate; `StoreFailure`
stands for any unexpected lower-layer exception such as an injected database
commit failure or an `OSError`/`AttributeError`). -/
inductive Err where
  | UserNotFound
  | DataNotFound
  | DataAlreadyExists
  | PermissionDenied
  | InvalidName
  | StoreFailure
deriving DecidableEq, Repr

deriving instance DecidableEq for Except

/-- Error component of an orchestrator result, for concrete evaluation. -/
def errOf {α : Type} : Except Err α → Option Err
  | .error e => some e
  | .ok _ => none

/-- Metadata record (`apps/storage/models.py` `DataInfo` row): owner,
trailing-slash parent path `root`, leaf `name`, kind flag, byte size. -/
structure DataInfo where
  id : Nat
  user_id : Nat
  name : String
  root : String
  is_dir : Bool
  size : Nat
  created : Nat
deriving DecidableEq, Repr

/-- Relational store state: the `DataInfo` rows plus the next auto-increment id. -/
structure DB where
  rows : List DataInfo
  nextId : Nat
deriving DecidableEq, Repr

/-- Well-formedness used by a few theorems: primary keys are unique,
as the relational store guarantees for its `id` column. -/
def dbIdsNodup (db : DB) : Prop := (db.rows.map (fun r => r.id)).Nodup

instance (db : DB) : Decidable (dbIdsNodup db) := by
  unfold dbIdsNodup
  infer_instance

/-- Metadata reader, `DataDBQueryReader.__call__`
(`data_db_query.py` lines 101-146), embedded faithfully:
  * `if data_id:` / `if user_id:` use Python truthiness (`0` is falsy);
  * at lines 120-121 and 130-131 the source builds `query.filter(DataInfo.user_id
    == user_id)` but discards the returned query, so the owner filter is never
    applied — the embedding reproduces that by ignoring `user_id`;
  * `if is_dir:` at line 137 is entered only when the filter value is truthy,
    i.e. `True`; a supplied `False` filter is skipped like `None`. -/
def dbReaderCall (db : DB) (user_id : Option Nat) (is_dir : Option Bool)
    (data_id : Option Nat) (full_root : Option (String × String)) : Option DataInfo :=
  let data : Option DataInfo :=
    if truthyNat data_id then
      -- search by data_id; the user_id filter is built and dropped in the source
      db.rows.find? (fun r => r.id == data_id.getD 0)
    else
      match full_root with
      | some fr =>
        -- search by (root, name); the user_id filter is likewise dropped
        db.rows.find? (fun r => r.root == fr.1 && r.name == fr.2)
      | none => none
  if is_dir == some true then
    match data with
    | some d => if d.is_dir then some d else none
    | none => none
  else
    data

/-- Input format for a row insertion (`DataInfoCreate` schema fields). -/
structure DataInfoCreate where
  name : String
  root : String
  user_id : Nat
  is_dir : Bool
  size : Nat
deriving DecidableEq, Repr

/-- Metadata creator, `DataDBQueryCreator.__call__` (lines 19-52): refuses a
`(name, root, user_id, is_dir)` collision with `DataAlreadyExists`, otherwise
inserts a fresh row and returns it. -/
def dbCreate (db : DB) (f : DataInfoCreate) : Except Err (DataInfo × DB) :=
  if db.rows.any (fun r =>
      r.name == f.name && r.root == f.root &&
      r.user_id == f.user_id && r.is_dir == f.is_dir) then
    .error .DataAlreadyExists
  else
    let d : DataInfo :=
      { id := db.nextId, user_id := f.user_id, name := f.name,
        root := f.root, is_dir := f.is_dir, size := f.size, created := 0 }
    .ok (d, { rows := db.rows ++ [d], nextId := db.nextId + 1 })

/-- Metadata destroyer, `DataDBQueryDestroyer.__call__` (lines 54-99): loads
the row by id (a missing row makes the source crash on `data.root`, embedded
as `StoreFailure`); for a directory it also deletes every same-owner row whose
`root` starts with `root + name + "/"`; returns the deleted row's
`(root, name)`. Tag rows are not modelled (no claim mentions them). -/
def dbDestroy (db : DB) (data_id : Nat) : Except Err ((String × String) × DB) :=
  match db.rows.find? (fun r => r.id == data_id) with
  | none => .error .StoreFailure
  | some d =>
    let rows1 :=
      if d.is_dir then
        db.rows.filter (fun r =>
          !(r.user_id == d.user_id && strStartsWith r.root (d.root ++ d.name ++ "/")))
      else db.rows
    .ok ((d.root, d.name), { db with rows := rows1.filter (fun r => !(r.id == data_id)) })

/-- Metadata updator (rename), `DataDBQueryUpdator.__call__` (lines 148-187):
loads the row by `(user_id, id)` (this filter IS applied in the source),
fails `DataNotFound` if absent; renames it; if it is a directory, every
same-owner row whose `root` starts with `old_root + old_name + "/"` gets
`replace(root, old_prefix, new_prefix)` applied — the SQL `replace`, i.e.
every occurrence substituted, embedded by `strReplace`. -/
def dbUpdate (db : DB) (new_name : String) (user_id data_id : Nat) :
    Except Err (DataInfo × DB) :=
  match db.rows.find? (fun r => r.user_id == user_id && r.id == data_id) with
  | none => .error .DataNotFound
  | some d =>
    let dst := d.root ++ d.name ++ "/"
    let src := d.root ++ new_name ++ "/"
    let rows1 := db.rows.map (fun r =>
      let r1 := if r.id == data_id && r.user_id == user_id then { r with name := new_name } else r
      if d.is_dir && (r1.user_id == user_id && strStartsWith r1.root dst) then
        { r1 with root := strReplace r1.root dst src }
      else r1)
    .ok ({ d with name := new_name }, { db with rows := rows1 })

/-- Size autoupdate on re-upload, `DataDBQuery.update_file_automatic`
(lines 195-219): loads by id, `DataNotFound` if absent, stores the new size
only, returns the refreshed row. -/
def updateFileAutomatic (db : DB) (data_id : Nat) (size : Nat) :
    Except Err (DataInfo × DB) :=
  match db.rows.find? (fun r => r.id == data_id) with
  | none => .error .DataNotFound
  | some d =>
    .ok ({ d with size := size },
         { db with rows := db.rows.map (fun r =>
             if r.id == data_id then { r with size := size } else r) })

/-- Size synchronisation, `DataDBQuery.sync_file_size` (lines 221-241): loads
by id (`DataNotFound` if absent), probes the physical byte size
(`os.path.getsize`, an absent path raising `OSError`, embedded as
`StoreFailure`), and persists the physical value when it differs from the
stored one, returning the refreshed row. The physical probe is supplied as an
`Option Nat` by the caller. -/
def syncFileSize (db : DB) (data_id : Nat) (realSize : Option Nat) :
    Except Err (DataInfo × DB) :=
  match db.rows.find? (fun r => r.id == data_id) with
  | none => .error .DataNotFound
  | some d =>
    match realSize with
    | none => .error .StoreFailure
    | some real =>
      if real ≠ d.size then
        .ok ({ d with size := real },
             { db with rows := db.rows.map (fun r =>
                 if r.id == data_id then { r with size := real } else r) })
      else
        .ok (d, db)

/-- Kind of a physical filesystem entry. -/
inductive PhysEntry where
  | file (size : Nat)
  | dir
deriving DecidableEq, Repr

/-- Modelled from the spec: physical store state (spec section 4.3), a finite
map from resolved physical paths to entries, standing in for the repository's
`DataStorageQuery` whose source file is not provided. -/
structure Storage where
  objs : List (String × PhysEntry)
deriving DecidableEq, Repr

/-- Entry at a physical path, if any. -/
def Storage.lookup (st : Storage) (p : String) : Option PhysEntry :=
  (st.objs.find? (fun e => e.1 == p)).map (fun e => e.2)

/-- Modelled from the spec: `DataStorageQuery.read` — an existence probe at a
resolved path for the requested kind; a missing object or an object of the
other kind reads as absent. -/
def Storage.readQ (st : Storage) (p : String) (is_dir : Bool) : Bool :=
  match st.lookup p with
  | some .dir => is_dir
  | some (.file _) => !is_dir
  | none => false

/-- Modelled from the spec: `DataStorageQuery.create` — writes a directory or
a file byte stream at a resolved path (replacing any object already there)
and returns the resulting byte size for files. -/
def Storage.createQ (st : Storage) (p : String) (is_dir : Bool) (content : Nat) :
    Nat × Storage :=
  let entry := if is_dir then PhysEntry.dir else PhysEntry.file content
  (if is_dir then 0 else content,
   { objs := (p, entry) :: st.objs.filter (fun e => e.1 != p) })

/-- Modelled from the spec: `DataStorageQuery.destroy` — recursive delete of
the object at a path and everything below it, idempotent when already absent. -/
def Storage.destroyQ (st : Storage) (p : String) : Storage :=
  { objs := st.objs.filter (fun e =>
      !(e.1 == p || strStartsWith e.1 (p ++ "/"))) }

/-- Modelled from the spec: `DataStorageQuery.update` — renames the leaf
component of `old_path` in place; fails (collision) when the destination is
already occupied; returns `none` leaving the store unchanged when the source
object is absent; otherwise moves the object and its subtree and returns the
new path. -/
def Storage.updateQ (st : Storage) (old_path new_name : String) :
    Except Unit (Option String × Storage) :=
  let newPath := dirPart old_path ++ new_name
  if (st.lookup newPath).isSome then
    .error ()
  else if (st.lookup old_path).isNone then
    .ok (none, st)
  else
    .ok (some newPath,
      { objs := st.objs.map (fun e =>
          if e.1 == old_path then (newPath, e.2)
          else if strStartsWith e.1 (old_path ++ "/") then
            (swapLead e.1 old_path newPath, e.2)
          else e) })

/-- Number of objects directly inside a directory path
(`len(os.listdir(raw_root))` in `DataManager.read`). -/
def Storage.childCount (st : Storage) (p : String) : Nat :=
  (st.objs.filter (fun e =>
    strStartsWith e.1 (p ++ "/") &&
    !(containsSub (e.1.data.drop (p ++ "/").data.length) ['/']))).length

/-- Modelled from the spec: user record as the user lookup collaborator
(`UserDBQuery`) returns it — id, admin flag. -/
structure UserRec where
  id : Nat
  is_admin : Bool
deriving DecidableEq, Repr

/-- Modelled from the spec: `UserDBQuery().read(user_id=...)`. -/
def userRead (users : List UserRec) (user_id : Nat) : Option UserRec :=
  users.find? (fun u => u.id == user_id)

/-- Combined system state the orchestrator acts on. -/
structure Sys where
  users : List UserRec
  db : DB
  storage : Storage
deriving DecidableEq, Repr

/-- Storage root configured in `settings.base.SERVER["storage"]`
(an arbitrary fixed value; the engine only concatenates it). -/
def SERVER_storage : String := "/cm"

/-- Physical path implied by a metadata slot:
`f'{SERVER["storage"]}/storage/{user_id}/root{root}{name}'`. -/
def rawRoot (user_id : Nat) (root name : String) : String :=
  SERVER_storage ++ "/storage/" ++ natStr user_id ++ "/root" ++ root ++ name

/-- Modelled from the spec: name validation performed by the
`DataInfoCreate`/`DataInfoUpdate` schemas (spec section 4.1): an empty name or
a name containing any of the reserved characters is rejected. -/
def validName (s : String) : Bool :=
  !s.data.isEmpty &&
    s.data.all (fun c =>
      !(['/', '\\', ':', '*', '"', '\x27', '<', '>', '|'].contains c))

/-- Modelled from the spec: the `Authenticated(issueKind)` atom
(`PermissionIssueLoginChecker`) — the token must carry the login issue kind. -/
def authenticatedB (issue : String) : Bool := issue == "login"

/-- Access-policy composite evaluated by every `DataManager` entry point:
`LoginedOnly(issue) & (AdminOnly(is_admin) | (~AdminOnly(is_admin) &
OnlyMine(op_id, target_id)))`. The atoms (`IsAdmin`, `IsOwner`) are modelled
from the spec; the composite shape is the one in `managers.py`. -/
def permCheck (issue : String) (is_admin : Bool) (op_id target_id : Nat) : Bool :=
  authenticatedB issue && (is_admin || (!is_admin && op_id == target_id))

/-- Parent-path resolution shared by both create managers
(`managers.py` lines 54-64 and 182-193): id `0` is the virtual root `/`;
a non-zero id is looked up with the directory-kind filter and yields
`root + name + "/"`; an absent result means `DataNotFound`. -/
def resolveDirRoot (db : DB) (root_id user_id : Nat) : Option String :=
  if root_id ≠ 0 then
    match dbReaderCall db (some user_id) (some true) (some root_id) none with
    | none => none
    | some d => some (d.root ++ d.name ++ "/")
  else some "/"

/-- File creation, `DataFileCRUDManager.create` (`managers.py` lines 36-114).
`content` is the uploaded byte length; `dbFail` injects a failure into the
metadata commit step (the `except` clause catches any exception there).
Returns the result together with the post state. -/
def fileCreate (s : Sys) (root_id user_id : Nat) (filename : String)
    (content : Nat) (dbFail : Bool) : Except Err DataInfo × Sys :=
  if (userRead s.users user_id).isNone then (.error .UserNotFound, s) else
  match resolveDirRoot s.db root_id user_id with
  | none => (.error .DataNotFound, s)
  | some dir_root =>
    let fname := lastComponent filename
    let file_root := rawRoot user_id dir_root fname
    let already := dbReaderCall s.db (some user_id) none none (some (dir_root, fname))
    let already_id := match already with | some i => i.id | none => 0
    let already_is_dir := match already with | some i => i.is_dir | none => false
    if already_id ≠ 0 && already_is_dir then
      (.error .DataAlreadyExists, s)
    else
      -- a same-named object already in the storage is force-deleted first
      let st1 :=
        if Storage.readQ s.storage file_root true || Storage.readQ s.storage file_root false
        then Storage.destroyQ s.storage file_root else s.storage
      if !validName fname then (.error .InvalidName, { s with storage := st1 }) else
      let res := Storage.createQ st1 file_root false content
      let commit : Except Err (DataInfo × DB) :=
        if dbFail then .error .StoreFailure
        else if already_id ≠ 0 then
          updateFileAutomatic s.db already_id res.1
        else
          dbCreate s.db
            { name := fname, root := dir_root, user_id := user_id,
              is_dir := false, size := res.1 }
      match commit with
      | .error e => (.error e, { s with storage := Storage.destroyQ res.2 file_root })
      | .ok o => (.ok o.1, { s with db := o.2, storage := res.2 })

/-- Directory creation, `DataDirectoryCRUDManager.create`
(`managers.py` lines 176-225), with the same commit-failure injection. -/
def dirCreate (s : Sys) (root_id user_id : Nat) (dirname : String)
    (dbFail : Bool) : Except Err DataInfo × Sys :=
  if (userRead s.users user_id).isNone then (.error .UserNotFound, s) else
  match resolveDirRoot s.db root_id user_id with
  | none => (.error .DataNotFound, s)
  | some dir_root =>
    let root := rawRoot user_id dir_root dirname
    let already := dbReaderCall s.db (some user_id) none none (some (dir_root, dirname))
    let already_id := match already with | some i => i.id | none => 0
    if already_id ≠ 0 then
      (.error .DataAlreadyExists, s)
    else
      let st1 :=
        if Storage.readQ s.storage root true || Storage.readQ s.storage root false
        then Storage.destroyQ s.storage root else s.storage
      if !validName dirname then (.error .InvalidName, { s with storage := st1 }) else
      let res := Storage.createQ st1 root true 0
      let commit : Except Err (DataInfo × DB) :=
        if dbFail then .error .StoreFailure
        else dbCreate s.db
          { name := dirname, root := dir_root, user_id := user_id,
            is_dir := true, size := 0 }
      match commit with
      | .error e => (.error e, { s with storage := Storage.destroyQ res.2 root })
      | .ok o => (.ok o.1, { s with db := o.2, storage := res.2 })

/-- File rename, `DataFileCRUDManager.update` (`managers.py` lines 120-162):
user check, target lookup with the `is_dir=False` filter, name validation,
physical rename (collision becomes `DataAlreadyExists`; an absent source
purges the stale row and raises `DataNotFound`), metadata rename, and on a
metadata failure the physical rename is compensated. -/
def fileUpdate (s : Sys) (user_id data_id : Nat) (new_name : String) :
    Except Err DataInfo × Sys :=
  if (userRead s.users user_id).isNone then (.error .UserNotFound, s) else
  match dbReaderCall s.db (some user_id) (some false) (some data_id) none with
  | none => (.error .DataNotFound, s)
  | some data =>
    if !validName new_name then (.error .InvalidName, s) else
    let directory_root := SERVER_storage ++ "/storage/" ++ natStr user_id ++ "/root" ++ data.root
    let raw_root := directory_root ++ data.name
    match Storage.updateQ s.storage raw_root new_name with
    | .error _ => (.error .DataAlreadyExists, s)
    | .ok (none, st1) =>
      match dbDestroy s.db data_id with
      | .ok o => (.error .DataNotFound, { s with db := o.2, storage := st1 })
      | .error e => (.error e, { s with storage := st1 })
    | .ok (some _, st1) =>
      match dbUpdate s.db new_name user_id data_id with
      | .ok o => (.ok o.1, { s with db := o.2, storage := st1 })
      | .error e =>
        match Storage.updateQ st1 (directory_root ++ new_name) data.name with
        | .ok o2 => (.error e, { s with storage := o2.2 })
        | .error _ => (.error .StoreFailure, { s with storage := st1 })

/-- Directory rename, `DataDirectoryCRUDManager.update` (lines 227-268):
identical to the file rename except that the target lookup passes no
`is_dir` filter. -/
def dirUpdate (s : Sys) (user_id data_id : Nat) (new_name : String) :
    Except Err DataInfo × Sys :=
  if (userRead s.users user_id).isNone then (.error .UserNotFound, s) else
  match dbReaderCall s.db (some user_id) none (some data_id) none with
  | none => (.error .DataNotFound, s)
  | some data =>
    if !validName new_name then (.error .InvalidName, s) else
    let directory_root := SERVER_storage ++ "/storage/" ++ natStr user_id ++ "/root" ++ data.root
    let raw_root := directory_root ++ data.name
    match Storage.updateQ s.storage raw_root new_name with
    | .error _ => (.error .DataAlreadyExists, s)
    | .ok (none, st1) =>
      match dbDestroy s.db data_id with
      | .ok o => (.error .DataNotFound, { s with db := o.2, storage := st1 })
      | .error e => (.error e, { s with storage := st1 })
    | .ok (some _, st1) =>
      match dbUpdate s.db new_name user_id data_id with
      | .ok o => (.ok o.1, { s with db := o.2, storage := st1 })
      | .error e =>
        match Storage.updateQ st1 (directory_root ++ new_name) data.name with
        | .ok o2 => (.error e, { s with storage := o2.2 })
        | .error _ => (.error .StoreFailure, { s with storage := st1 })

/-- Deletion body shared verbatim by `DataFileCRUDManager.destroy` and
`DataDirectoryCRUDManager.destroy` (lines 164-168 and 278-282): delete the
metadata row first (returning its slot), then recursively delete the physical
object at the implied path. -/
def crudDestroy (s : Sys) (user_id data_id : Nat) : Except Err Unit × Sys :=
  match dbDestroy s.db data_id with
  | .error e => (.error e, s)
  | .ok o =>
    let raw_root := rawRoot user_id o.1.1 o.1.2
    (.ok (), { s with db := o.2, storage := Storage.destroyQ s.storage raw_root })

/-- Orchestrator create, `DataManager.create` (lines 291-337): policy gate
first (an unresolvable operator, then the composite), then dispatch on the
request payload; with neither a file nor a truthy directory name the method
falls through and returns `None`. -/
def managerCreate (s : Sys) (op : Option UserRec) (issue : String)
    (user_id data_id : Nat) (req_file : Option (String × Nat))
    (req_dirname : Option String) (dbFail : Bool) :
    Except Err (Option DataInfo) × Sys :=
  match op with
  | none => (.error .PermissionDenied, s)
  | some u =>
    if !permCheck issue u.is_admin u.id user_id then (.error .PermissionDenied, s) else
    match req_file with
    | some f =>
      match fileCreate s data_id user_id f.1 f.2 dbFail with
      | (.error e, s1) => (.error e, s1)
      | (.ok i, s1) => (.ok (some i), s1)
    | none =>
      match req_dirname with
      | some dn =>
        if dn ≠ "" then
          match dirCreate s data_id user_id dn dbFail with
          | (.error e, s1) => (.error e, s1)
          | (.ok i, s1) => (.ok (some i), s1)
        else (.ok none, s)
      | none => (.ok none, s)

/-- Payload returned by `DataManager.read`. -/
structure ReadRes where
  created : Nat
  root : String
  is_dir : Bool
  name : String
  size : Nat
  file : Option String
deriving DecidableEq, Repr

/-- Orchestrator read, `DataManager.read` (lines 339-407): policy gate, user
existence, metadata lookup by id, physical probe at the implied path — an
absent object purges the stale row and raises `DataNotFound` — then size
synchronisation for files; directory size is the live child count. Download
mode additionally exposes the file path, or an archive built from the
directory (the archive artifact is modelled as a tagged path, its
timestamped temporary name being outside the embedding). -/
def managerRead (s : Sys) (op : Option UserRec) (issue : String)
    (user_id data_id : Nat) (mode : String) : Except Err ReadRes × Sys :=
  match op with
  | none => (.error .PermissionDenied, s)
  | some u =>
    if !permCheck issue u.is_admin u.id user_id then (.error .PermissionDenied, s) else
    if (userRead s.users user_id).isNone then (.error .UserNotFound, s) else
    match dbReaderCall s.db (some user_id) none (some data_id) none with
    | none => (.error .DataNotFound, s)
    | some info =>
      let raw_root := rawRoot user_id info.root info.name
      if !Storage.readQ s.storage raw_root info.is_dir then
        match dbDestroy s.db info.id with
        | .ok o => (.error .DataNotFound, { s with db := o.2 })
        | .error e => (.error e, s)
      else
        let sync : Except Err (DataInfo × DB) :=
          if !info.is_dir then
            syncFileSize s.db data_id (s.storage.lookup raw_root |>.map (fun e =>
              match e with | .file n => n | .dir => 0))
          else .ok (info, s.db)
        match sync with
        | .error e => (.error e, s)
        | .ok o =>
          let res : ReadRes :=
            { created := o.1.created, root := o.1.root, is_dir := o.1.is_dir,
              name := o.1.name,
              size := if o.1.is_dir then s.storage.childCount raw_root else o.1.size,
              file :=
                if mode == "download" then
                  some (if o.1.is_dir then "archive:" ++ raw_root else raw_root)
                else none }
          (.ok res, { s with db := o.2 })

/-- Payload returned by `DataManager.update`. -/
structure UpdRes where
  created : Nat
  data_id : Nat
  root : String
  name : String
  is_dir : Bool
deriving DecidableEq, Repr

/-- Orchestrator rename, `DataManager.update` (lines 409-452): policy gate,
target lookup by id, dispatch on the target kind, and repackaging of the
returned row. -/
def managerUpdate (s : Sys) (op : Option UserRec) (issue : String)
    (user_id data_id : Nat) (new_name : String) : Except Err UpdRes × Sys :=
  match op with
  | none => (.error .PermissionDenied, s)
  | some u =>
    if !permCheck issue u.is_admin u.id user_id then (.error .PermissionDenied, s) else
    match dbReaderCall s.db (some user_id) none (some data_id) none with
    | none => (.error .DataNotFound, s)
    | some target =>
      match (if target.is_dir then dirUpdate s user_id data_id new_name
             else fileUpdate s user_id data_id new_name) with
      | (.error e, s1) => (.error e, s1)
      | (.ok r, s1) =>
        (.ok { created := r.created, data_id := r.id, root := r.root,
               name := r.name, is_dir := r.is_dir }, s1)

/-- Orchestrator delete, `DataManager.destroy` (lines 454-482): policy gate,
target lookup by id, then the shared deletion body (the file and directory
branches of the source are line-for-line identical). -/
def managerDestroy (s : Sys) (op : Option UserRec) (issue : String)
    (user_id data_id : Nat) : Except Err Unit × Sys :=
  match op with
  | none => (.error .PermissionDenied, s)
  | some u =>
    if !permCheck issue u.is_admin u.id user_id then (.error .PermissionDenied, s) else
    match dbReaderCall s.db (some user_id) none (some data_id) none with
    | none => (.error .DataNotFound, s)
    | some _ => crudDestroy s user_id data_id

/-! Concrete states used by counterexamples and witnesses. -/

/-- An admin operator. -/
def adminU : UserRec := { id := 1, is_admin := true }

/-- A non-admin operator. -/
def clientU : UserRec := { id := 3, is_admin := false }

/-- A file record of owner 1 at slot `("/", "f")`. -/
def recF : DataInfo :=
  { id := 1, user_id := 1, name := "f", root := "/", is_dir := false, size := 3, created := 0 }

/-- State whose slot `("/", "f")` is occupied in both stores. -/
def sysOverwrite : Sys :=
  { users := [adminU],
    db := { rows := [recF], nextId := 2 },
    storage := { objs := [(rawRoot 1 "/" "f", .file 3)] } }

/-- State with owner 1 present and both stores empty. -/
def sysFresh : Sys :=
  { users := [adminU], db := { rows := [], nextId := 1 }, storage := { objs := [] } }

/-- A file record of owner 1 with stored size 2, id 5. -/
def recF5 : DataInfo :=
  { id := 5, user_id := 1, name := "f", root := "/", is_dir := false, size := 2, created := 0 }

/-- State with a metadata record whose physical object is missing. -/
def sysStale : Sys :=
  { users := [adminU], db := { rows := [recF5], nextId := 6 }, storage := { objs := [] } }

/-- State whose stored size (2) differs from the physical size (7). -/
def sysDrift : Sys :=
  { users := [adminU],
    db := { rows := [recF5], nextId := 6 },
    storage := { objs := [(rawRoot 1 "/" "f", .file 7)] } }

/-- State whose slot `("/", "f")` holds a consistent file of size 2. -/
def sysSlot : Sys :=
  { users := [adminU],
    db := { rows := [recF5], nextId := 6 },
    storage := { objs := [(rawRoot 1 "/" "f", .file 2)] } }

/-- A directory record with id 1 owned by user 2. -/
def recDirOwner2 : DataInfo :=
  { id := 1, user_id := 2, name := "d", root := "/", is_dir := true, size := 0, created := 0 }

/-- State with two non-admin tenants where the only directory belongs to user 2. -/
def sysCross : Sys :=
  { users := [{ id := 1, is_admin := false }, { id := 2, is_admin := false }],
    db := { rows := [recDirOwner2], nextId := 2 },
    storage := { objs := [] } }

/-- A directory record of owner 1 at slot `("/", "d")`. -/
def recD : DataInfo :=
  { id := 1, user_id := 1, name := "d", root := "/", is_dir := true, size := 0, created := 0 }

/-- Metadata store holding only the directory `recD`. -/
def dbMixed : DB := { rows := [recD], nextId := 2 }

/-- Metadata store holding only the file `recF`. -/
def dbFileOnly : DB := { rows := [recF], nextId := 2 }

/-- Directory `x` at root together with a descendant whose parent path
`/x/ab/x/` contains the directory's prefix string `/x/` twice. -/
def dbNest : DB :=
  { rows := [
      { id := 1, user_id := 1, name := "x", root := "/", is_dir := true, size := 0, created := 0 },
      { id := 2, user_id := 1, name := "f", root := "/x/ab/x/", is_dir := false, size := 0, created := 0 }],
    nextId := 3 }

/-- The state `sysSlot` after re-uploading `f` with 9 bytes. -/
def sysSlotAfter : Sys :=
  { users := [adminU],
    db := { rows := [{ id := 5, user_id := 1, name := "f", root := "/",
                       is_dir := false, size := 9, created := 0 }], nextId := 6 },
    storage := { objs := [(rawRoot 1 "/" "f", .file 9)] } }

/-- Directory `x` at root with a descendant at `/x/q/` (no re-occurrence). -/
def dbPlain : DB :=
  { rows := [
      { id := 1, user_id := 1, name := "x", root := "/", is_dir := true, size := 0, created := 0 },
      { id := 2, user_id := 1, name := "g", root := "/x/q/", is_dir := false, size := 0, created := 0 }],
    nextId := 3 }

/-! Helper lemmas about the string and store primitives. -/

/-- Appending strings concatenates their character lists. -/
theorem strData_append (a b : String) : (a ++ b).data = a.data ++ b.data := by
  cases a
  cases b
  rfl

/-- Rebuilding a string from concatenated character lists is string append. -/
theorem strMk_append (a b : String) : String.mk (a.data ++ b.data) = a ++ b := by
  cases a
  cases b
  rfl

/-- A list is a Boolean-level leading segment of itself followed by anything. -/
theorem isPrefOf_append_self (l1 l2 : List Char) : l1.isPrefixOf (l1 ++ l2) = true := by
  induction l1 with
  | nil => simp [List.isPrefixOf]
  | cons a as ih => simp [List.isPrefixOf, ih]

/-- Unfolding equation of `listReplaceF` on a cons cell with fuel left. -/
theorem listReplaceF_succ_cons (f : Nat) (c : Char) (rest pat rep : List Char) :
    listReplaceF (f + 1) (c :: rest) pat rep =
      if (decide (pat ≠ []) && pat.isPrefixOf (c :: rest)) = true then
        rep ++ listReplaceF f ((c :: rest).drop pat.length) pat rep
      else c :: listReplaceF f rest pat rep := rfl

/-- Replacement is the identity on a list in which the pattern never occurs. -/
theorem listReplaceF_of_not_contains (pat rep : List Char) :
    ∀ (s : List Char) (f : Nat), containsSub s pat = false →
      listReplaceF f s pat rep = s := by
  intro s
  induction s with
  | nil =>
    intro f _
    cases f <;> rfl
  | cons c rest ih =>
    intro f h
    unfold containsSub at h
    simp only [Bool.or_eq_false_iff] at h
    cases f with
    | zero => rfl
    | succ f =>
      rw [listReplaceF_succ_cons, h.1]
      simp only [Bool.and_false, Bool.false_eq_true, if_false]
      rw [ih f h.2]

/-- Replacing a pattern in `pat ++ tail`, when the pattern does not occur in
`tail`, rewrites exactly the leading `pat`. -/
theorem listReplaceF_lead (pat tail rep : List Char) (hp : pat ≠ [])
    (hc : containsSub tail pat = false) :
    ∀ f, 1 ≤ f → listReplaceF f (pat ++ tail) pat rep = rep ++ tail := by
  intro f hf
  cases f with
  | zero => omega
  | succ f =>
    cases pat with
    | nil => exact absurd rfl hp
    | cons a as =>
      rw [List.cons_append, listReplaceF_succ_cons, ← List.cons_append]
      rw [if_pos]
      · rw [List.drop_left, listReplaceF_of_not_contains _ _ _ _ hc]
      · simp [isPrefOf_append_self (a :: as) tail]

/-- String version of the leading-replacement lemma: if the old prefix does
not re-occur in the remainder, SQL `replace` acts as a prefix rewrite. -/
theorem strReplace_lead (pre tail rep : String) (hp : pre.data ≠ [])
    (hc : containsSubStr tail pre = false) :
    strReplace (pre ++ tail) pre rep = rep ++ tail := by
  have h1 : 1 ≤ (pre.data ++ tail.data).length := by
    cases hd : pre.data with
    | nil => exact absurd hd hp
    | cons x xs => simp
  unfold strReplace
  rw [strData_append pre tail]
  rw [listReplaceF_lead pre.data tail.data rep.data hp hc _ h1]
  exact strMk_append rep tail

/-- After a recursive physical delete at `p`, nothing reads back at `p`. -/
theorem readQ_destroyQ_self (st : Storage) (p : String) (k : Bool) :
    Storage.readQ (Storage.destroyQ st p) p k = false := by
  unfold Storage.readQ Storage.destroyQ Storage.lookup
  have hnone : (List.filter
      (fun e => !(e.1 == p || strStartsWith e.1 (p ++ "/"))) st.objs).find?
      (fun e => e.1 == p) = none := by
    rw [List.find?_eq_none]
    intro x hx
    have h2 := (List.mem_filter.mp hx).2
    simp only [Bool.not_eq_true', Bool.or_eq_false_iff] at h2
    simp [h2.1]
  rw [hnone]
  rfl

/-- Unique primary keys force rows with equal id to be the same row. -/
theorem row_eq_of_id_eq {db : DB} (h : dbIdsNodup db) {a b : DataInfo}
    (ha : a ∈ db.rows) (hb : b ∈ db.rows) (hid : a.id = b.id) : a = b :=
  List.inj_on_of_nodup_map h ha hb hid

/-- Inversion of a successful `update_file_automatic`: the row was found by id and only its size changed. -/
theorem updateFileAutomatic_ok {db : DB} {data_id size : Nat} {info : DataInfo} {db' : DB}
    (h : updateFileAutomatic db data_id size = .ok (info, db')) :
    ∃ d, db.rows.find? (fun r => r.id == data_id) = some d
      ∧ info = { d with size := size }
      ∧ db'.rows = db.rows.map (fun r => if r.id == data_id then { r with size := size } else r) := by
  unfold updateFileAutomatic at h
  cases hf : db.rows.find? (fun r => r.id == data_id) with
  | none =>
    rw [hf] at h
    simp at h
  | some d =>
    rw [hf] at h
    injection h with h1
    injection h1 with h2 h3
    exact ⟨d, rfl, h2.symm, by rw [← h3]⟩

/-- Inversion of a successful metadata insert: the returned row carries the input fields and is appended. -/
theorem dbCreate_ok {db : DB} {f : DataInfoCreate} {info : DataInfo} {db' : DB}
    (h : dbCreate db f = .ok (info, db')) :
    info = { id := db.nextId, user_id := f.user_id, name := f.name,
             root := f.root, is_dir := f.is_dir, size := f.size, created := 0 }
    ∧ db'.rows = db.rows ++ [info] := by
  unfold dbCreate at h
  split at h
  · simp at h
  · injection h with h1
    injection h1 with h2 h3
    refine ⟨h2.symm, ?_⟩
    rw [← h3, ← h2]

/-- A physical file write reports the written byte length. -/
theorem createQ_file_fst (st : Storage) (p : String) (c : Nat) :
    (Storage.createQ st p false c).1 = c := rfl

/-- Inversion of a successful file create: the parent resolved, and the metadata commit was either an in-place size update of the record already occupying the slot or a fresh insert. -/
theorem fileCreate_ok_inv {s : Sys} {root_id user_id : Nat} {filename : String}
    {content : Nat} {dbFail : Bool} {info : DataInfo} {s' : Sys}
    (h : fileCreate s root_id user_id filename content dbFail = (.ok info, s')) :
    ∃ dir_root, resolveDirRoot s.db root_id user_id = some dir_root ∧
      ((∃ i, dbReaderCall s.db (some user_id) none none (some (dir_root, lastComponent filename)) = some i ∧
          ¬ i.id = 0 ∧ i.is_dir = false ∧
          updateFileAutomatic s.db i.id content = .ok (info, s'.db))
       ∨ ((dbReaderCall s.db (some user_id) none none (some (dir_root, lastComponent filename)) = none
            ∨ ∃ i, dbReaderCall s.db (some user_id) none none (some (dir_root, lastComponent filename)) = some i
                ∧ i.id = 0)
          ∧ dbCreate s.db
              { name := lastComponent filename, root := dir_root,
                user_id := user_id, is_dir := false, size := content } = .ok (info, s'.db))) := by
  unfold fileCreate at h
  simp only [createQ_file_fst] at h
  split at h
  · simp at h
  cases hr : resolveDirRoot s.db root_id user_id with
  | none =>
    rw [hr] at h
    simp at h
  | some dir_root =>
    rw [hr] at h
    simp only at h
    refine ⟨dir_root, rfl, ?_⟩
    cases hA : dbReaderCall s.db (some user_id) none none (some (dir_root, lastComponent filename)) with
    | some i =>
      rw [hA] at h
      simp only at h
      split at h
      · simp at h
      rename_i hguard
      split at h
      · simp at h
      split at h
      · simp at h
      rename_i o heq
      injection h with h1 h2
      injection h1 with h3
      have hdb : s'.db = o.2 := by rw [← h2]
      split at heq
      · simp at heq
      split at heq
      · rename_i hcond
        left
        simp only [Bool.not_eq_true, Bool.and_eq_false_iff] at hguard
        have hdir : i.is_dir = false := by
          rcases hguard with hg | hg
          · simp only [decide_eq_false_iff_not, ne_eq, not_not] at hg
            exact absurd hg hcond
          · exact hg
        refine ⟨i, rfl, hcond, hdir, ?_⟩
        rw [heq, ← h3, hdb, Prod.mk.eta]
      · rename_i hcond
        refine Or.inr ⟨Or.inr ⟨i, rfl, by simpa using hcond⟩, ?_⟩
        rw [heq, ← h3, hdb, Prod.mk.eta]
    | none =>
      rw [hA] at h
      simp only at h
      split at h
      · simp at h
      split at h
      · simp at h
      split at h
      · simp at h
      rename_i o heq
      injection h with h1 h2
      injection h1 with h3
      have hdb : s'.db = o.2 := by rw [← h2]
      split at heq
      · simp at heq
      split at heq
      · rename_i hcond
        exact absurd rfl hcond
      · refine Or.inr ⟨Or.inl rfl, ?_⟩
        rw [heq, ← h3, hdb, Prod.mk.eta]

/-- Reading id 0 never hits the id branch (Python truthiness) and returns nothing. -/
theorem dbReaderCall_id_zero (db : DB) (u : Option Nat) :
    dbReaderCall db u none (some 0) none = none := rfl

/-- A non-zero id read is a bare find-by-id: the owner filter is dropped by the source. -/
theorem dbReaderCall_id_eq (db : DB) (u : Option Nat) (data_id : Nat) (h : data_id ≠ 0) :
    dbReaderCall db u none (some data_id) none
      = db.rows.find? (fun r => r.id == data_id) := by
  unfold dbReaderCall
  rw [if_neg (by decide)]
  rw [if_pos (by simp [truthyNat, h])]
  rfl

/-- Inversion of a successful read by id. -/
theorem dbReaderCall_id_some {db : DB} {u : Option Nat} {data_id : Nat} {i : DataInfo}
    (h : dbReaderCall db u none (some data_id) none = some i) :
    db.rows.find? (fun r => r.id == data_id) = some i ∧ data_id ≠ 0 ∧ i.id = data_id := by
  by_cases h0 : data_id = 0
  · rw [h0, dbReaderCall_id_zero] at h
    simp at h
  · rw [dbReaderCall_id_eq db u data_id h0] at h
    refine ⟨h, h0, ?_⟩
    have := List.find?_some h
    simpa using this

/-- After filtering out an id, a find by that id comes back empty. -/
theorem find_id_filter_none (l : List DataInfo) (data_id : Nat) :
    (l.filter (fun r => !(r.id == data_id))).find? (fun r => r.id == data_id) = none := by
  rw [List.find?_eq_none]
  intro x hx
  have h2 := (List.mem_filter.mp hx).2
  simp only [Bool.not_eq_true'] at h2
  simp [h2]

/-- A find by id traverses a size-rewriting map pointwise. -/
theorem find_id_map_size (l : List DataInfo) (data_id n : Nat) :
    (l.map (fun r => if r.id == data_id then { r with size := n } else r)).find?
      (fun r => r.id == data_id)
    = (l.find? (fun r => r.id == data_id)).map (fun r => { r with size := n }) := by
  induction l with
  | nil => rfl
  | cons a l ih =>
    simp only [List.map_cons, List.find?_cons]
    by_cases ha : (a.id == data_id) = true
    · simp [ha]
    · simp [ha, -List.find?_map]
      simpa using ih

/-- Orchestrator read on a record whose physical object is gone: the row is purged and the call fails `DataNotFound`. -/
theorem managerRead_stale {s : Sys} {u : UserRec} {issue : String}
    {user_id data_id : Nat} {mode : String} {info : DataInfo}
    (hperm : permCheck issue u.is_admin u.id user_id = true)
    (husr : (userRead s.users user_id).isNone = false)
    (hinfo : dbReaderCall s.db (some user_id) none (some data_id) none = some info)
    (hphys : Storage.readQ s.storage (rawRoot user_id info.root info.name) info.is_dir = false) :
    ∃ db', managerRead s (some u) issue user_id data_id mode
        = (.error .DataNotFound, { s with db := db' })
      ∧ db'.rows.find? (fun r => r.id == data_id) = none := by
  obtain ⟨hfind, h0, hid⟩ := dbReaderCall_id_some hinfo
  have hfind2 : s.db.rows.find? (fun r => r.id == info.id) = some info := by
    rw [hid]
    exact hfind
  have hdest : ∃ rows1 : List DataInfo, dbDestroy s.db info.id
      = .ok ((info.root, info.name),
             { s.db with rows := rows1.filter (fun r => !(r.id == info.id)) }) := by
    refine ⟨if info.is_dir then
        s.db.rows.filter (fun r =>
          !(r.user_id == info.user_id && strStartsWith r.root (info.root ++ info.name ++ "/")))
      else s.db.rows, ?_⟩
    unfold dbDestroy
    rw [hfind2]
  obtain ⟨rows1, hd⟩ := hdest
  refine ⟨{ s.db with rows := rows1.filter (fun r => !(r.id == info.id)) }, ?_, ?_⟩
  · unfold managerRead
    simp only [hperm, Bool.not_true, Bool.false_eq_true, if_false, husr, hinfo, hphys,
      Bool.not_false, if_true, hd]
  · rw [← hid]
    exact find_id_filter_none rows1 info.id

/-- Orchestrator read of an id with no row fails `DataNotFound` without side effects. -/
theorem managerRead_notfound (s : Sys) (u : UserRec) (issue : String)
    (user_id data_id : Nat) (mode : String)
    (hperm : permCheck issue u.is_admin u.id user_id = true)
    (husr : (userRead s.users user_id).isNone = false)
    (hnone : dbReaderCall s.db (some user_id) none (some data_id) none = none) :
    managerRead s (some u) issue user_id data_id mode = (.error .DataNotFound, s) := by
  unfold managerRead
  simp [hperm, husr, hnone]

/-- Inversion of a successful read by slot `(root, name)`. -/
theorem dbReaderCall_slot_some {db : DB} {u : Option Nat} {root name : String} {i : DataInfo}
    (h : dbReaderCall db u none none (some (root, name)) = some i) :
    i ∈ db.rows ∧ i.root = root ∧ i.name = name := by
  unfold dbReaderCall at h
  simp only [truthyNat] at h
  have h2 : db.rows.find? (fun r => r.root == root && r.name == name) = some i := h
  refine ⟨List.mem_of_find?_eq_some h2, ?_, ?_⟩
  · have := List.find?_some h2
    simp only [Bool.and_eq_true, beq_iff_eq] at this
    exact this.1
  · have := List.find?_some h2
    simp only [Bool.and_eq_true, beq_iff_eq] at this
    exact this.2

/-- A size-rewriting map leaves any size-blind filter count unchanged. -/
theorem length_filter_map_size (l : List DataInfo) (id0 n : Nat) (p : DataInfo → Bool)
    (hp : ∀ r, p { r with size := n } = p r) :
    ((l.map (fun r => if r.id == id0 then { r with size := n } else r)).filter p).length
      = (l.filter p).length := by
  induction l with
  | nil => rfl
  | cons a l ih =>
    simp only [List.map_cons, List.filter_cons]
    by_cases ha : (a.id == id0) = true
    · rw [if_pos ha, hp a]
      by_cases hpa : p a = true
      · simp only [hpa, if_true]
        simp only [List.length_cons, ih]
      · simp only [Bool.not_eq_true] at hpa
        simp only [hpa, Bool.false_eq_true, if_false, ih]
    · rw [if_neg ha]
      by_cases hpa : p a = true
      · simp only [hpa, if_true]
        simp only [List.length_cons, ih]
      · simp only [Bool.not_eq_true] at hpa
        simp only [hpa, Bool.false_eq_true, if_false, ih]

/-- Claim C9: for every file upload that succeeds, the name stored in the
created or updated metadata record is the substring of the client-supplied
filename after its last slash — a filename containing path separators is
silently flattened to its final component. -/
theorem claim_C9 (s : Sys) (root_id user_id : Nat) (filename : String)
    (content : Nat) (dbFail : Bool) (info : DataInfo) (s' : Sys)
    (hn : dbIdsNodup s.db)
    (h : fileCreate s root_id user_id filename content dbFail = (.ok info, s')) :
    info.name = lastComponent filename := by
  obtain ⟨dir_root, hres, hcase⟩ := fileCreate_ok_inv h
  rcases hcase with ⟨i, hA, hid0, hdir, hupd⟩ | ⟨_, hC⟩
  · obtain ⟨d, hfind, hinfo_eq, hrows⟩ := updateFileAutomatic_ok hupd
    obtain ⟨hi_mem, hi_root, hi_name⟩ := dbReaderCall_slot_some hA
    have hd_mem : d ∈ s.db.rows := List.mem_of_find?_eq_some hfind
    have hd_id : d.id = i.id := by
      have := List.find?_some hfind
      simpa using this
    have hdi : d = i := row_eq_of_id_eq hn hd_mem hi_mem hd_id
    rw [hinfo_eq]
    show d.name = lastComponent filename
    rw [hdi, hi_name]
  · obtain ⟨hfields, _⟩ := dbCreate_ok hC
    rw [hfields]

/-- Claim C5: a file create at a slot already occupied by a file record
updates that record's size in place: the returned record keeps the existing
id, the row set is the old one with only that row's size changed, and every
size-blind row count (in particular the owner's count at the slot) is
unchanged — no second record is inserted. -/
theorem claim_C5 (s : Sys) (root_id user_id : Nat) (filename : String) (content : Nat)
    (rec info : DataInfo) (s' : Sys) (dir_root : String)
    (hn : dbIdsNodup s.db)
    (hres : resolveDirRoot s.db root_id user_id = some dir_root)
    (hrec : dbReaderCall s.db (some user_id) none none (some (dir_root, lastComponent filename))
        = some rec)
    (hfile : rec.is_dir = false) (hrid : rec.id ≠ 0)
    (hok : fileCreate s root_id user_id filename content false = (.ok info, s')) :
    info.id = rec.id
    ∧ s'.db.rows = s.db.rows.map (fun r =>
        if r.id == rec.id then { r with size := content } else r)
    ∧ ∀ p : DataInfo → Bool, (∀ r, p { r with size := content } = p r) →
        (s'.db.rows.filter p).length = (s.db.rows.filter p).length := by
  obtain ⟨dir_root2, hres2, hcase⟩ := fileCreate_ok_inv hok
  rw [hres] at hres2
  injection hres2 with hdr
  subst hdr
  rcases hcase with ⟨i, hA, hid0, hdir, hupd⟩ | ⟨hslot, _⟩
  · rw [hrec] at hA
    injection hA with hie
    subst hie
    obtain ⟨d, hfind, hinfo_eq, hrows⟩ := updateFileAutomatic_ok hupd
    have hd_id : d.id = rec.id := by
      have := List.find?_some hfind
      simpa using this
    refine ⟨?_, ?_, ?_⟩
    · rw [hinfo_eq]
      show d.id = rec.id
      exact hd_id
    · exact hrows
    · intro p hp
      rw [hrows]
      exact length_filter_map_size s.db.rows rec.id content p hp
  · rcases hslot with hnone | ⟨i, hsome, hzero⟩
    · rw [hrec] at hnone
      simp at hnone
    · rw [hrec] at hsome
      injection hsome with hie
      rw [← hie] at hzero
      exact absurd hzero hrid

/-- Claim C4: a read of a file whose physical object exists returns the
physical byte length as the size, and the database row is left holding that
physical value (the correction is persisted when the stored size differed). -/
theorem claim_C4 (s : Sys) (u : UserRec) (issue : String)
    (user_id data_id : Nat) (mode : String) (info : DataInfo) (n : Nat)
    (hperm : permCheck issue u.is_admin u.id user_id = true)
    (husr : (userRead s.users user_id).isNone = false)
    (hinfo : dbReaderCall s.db (some user_id) none (some data_id) none = some info)
    (hfile : info.is_dir = false)
    (hphys : Storage.lookup s.storage (rawRoot user_id info.root info.name) = some (.file n)) :
    (∃ res, (managerRead s (some u) issue user_id data_id mode).1 = .ok res ∧ res.size = n)
    ∧ (managerRead s (some u) issue user_id data_id mode).2.db.rows.find?
        (fun r => r.id == data_id) = some { info with size := n } := by
  obtain ⟨hfind, h0, hid⟩ := dbReaderCall_id_some hinfo
  have hrq : Storage.readQ s.storage (rawRoot user_id info.root info.name) false = true := by
    unfold Storage.readQ
    rw [hphys]
    rfl
  by_cases hsz : n ≠ info.size
  · have hsync : syncFileSize s.db data_id (some n)
        = .ok ({ info with size := n },
               { s.db with rows := s.db.rows.map (fun r =>
                   if r.id == data_id then { r with size := n } else r) }) := by
      unfold syncFileSize
      simp only [hfind]
      rw [if_pos hsz]
    have hE : managerRead s (some u) issue user_id data_id mode
        = (.ok { created := info.created, root := info.root, is_dir := false,
                 name := info.name, size := n,
                 file := if (mode == "download") = true
                         then some (rawRoot user_id info.root info.name) else none },
           { s with db := { s.db with rows := s.db.rows.map (fun r =>
               if r.id == data_id then { r with size := n } else r) } }) := by
      unfold managerRead
      simp only [hperm, husr, hinfo, hrq, hfile, hphys, hsync, Bool.not_true, Bool.not_false,
        Bool.false_eq_true, if_false, if_true, Option.map_some']
    refine ⟨⟨{ created := info.created, root := info.root, is_dir := false,
               name := info.name, size := n,
               file := if (mode == "download") = true
                       then some (rawRoot user_id info.root info.name) else none }, ?_, rfl⟩, ?_⟩
    · rw [hE]
    · simp only [hE]
      rw [find_id_map_size, hfind]
      rfl
  · simp only [ne_eq, not_not] at hsz
    have hsync : syncFileSize s.db data_id (some n) = .ok (info, s.db) := by
      unfold syncFileSize
      simp only [hfind]
      rw [if_neg (by simp [hsz])]
    have hE : managerRead s (some u) issue user_id data_id mode
        = (.ok { created := info.created, root := info.root, is_dir := false,
                 name := info.name, size := info.size,
                 file := if (mode == "download") = true
                         then some (rawRoot user_id info.root info.name) else none },
           { s with db := s.db }) := by
      unfold managerRead
      simp only [hperm, husr, hinfo, hrq, hfile, hphys, hsync, Bool.not_true, Bool.not_false,
        Bool.false_eq_true, if_false, if_true, Option.map_some']
    refine ⟨⟨{ created := info.created, root := info.root, is_dir := false,
               name := info.name, size := info.size,
               file := if (mode == "download") = true
                       then some (rawRoot user_id info.root info.name) else none },
             ?_, hsz.symm⟩, ?_⟩
    · rw [hE]
    · simp only [hE]
      rw [hsz]
      exact hfind

/-- Claim C2: a read (any mode) of a data id whose metadata record exists but
whose physical object is absent at the implied path deletes the metadata
record and fails `DataNotFound`, and a subsequent read of the same id also
fails `DataNotFound` — the record is purged, not merely hidden. -/
theorem claim_C2 (s : Sys) (u : UserRec) (issue : String)
    (user_id data_id : Nat) (mode : String) (info : DataInfo)
    (hperm : permCheck issue u.is_admin u.id user_id = true)
    (husr : (userRead s.users user_id).isNone = false)
    (hinfo : dbReaderCall s.db (some user_id) none (some data_id) none = some info)
    (hphys : Storage.readQ s.storage (rawRoot user_id info.root info.name) info.is_dir = false) :
    (managerRead s (some u) issue user_id data_id mode).1 = .error .DataNotFound
    ∧ dbReaderCall (managerRead s (some u) issue user_id data_id mode).2.db
        (some user_id) none (some data_id) none = none
    ∧ (managerRead (managerRead s (some u) issue user_id data_id mode).2
        (some u) issue user_id data_id mode).1 = .error .DataNotFound := by
  obtain ⟨db', hE, hF⟩ := managerRead_stale hperm husr hinfo hphys
  have h0 : data_id ≠ 0 := (dbReaderCall_id_some hinfo).2.1
  have hnone2 : dbReaderCall db' (some user_id) none (some data_id) none = none := by
    rw [dbReaderCall_id_eq _ _ _ h0]
    exact hF
  refine ⟨by rw [hE], ?_, ?_⟩
  · simp only [hE]
    exact hnone2
  · simp only [hE]
    rw [managerRead_notfound { s with db := db' } u issue user_id data_id mode hperm husr hnone2]

/-- Claim C1 (amended): when the metadata commit of a file or directory
create fails after the physical write, the orchestrator deletes the
just-written physical object and re-raises the error, and the metadata store
is left unchanged — hence when no record occupied the slot beforehand,
neither store holds an artifact there afterwards.  (When a file record
already occupied the slot, that record remains; see the counterexample.) -/
theorem claim_C1_amended :
    (∀ (s : Sys) (root_id user_id : Nat) (filename : String) (content : Nat) (dir_root : String),
      (userRead s.users user_id).isNone = false →
      resolveDirRoot s.db root_id user_id = some dir_root →
      (∀ i, dbReaderCall s.db (some user_id) none none
          (some (dir_root, lastComponent filename)) = some i → i.is_dir = false) →
      validName (lastComponent filename) = true →
      (fileCreate s root_id user_id filename content true).1 = .error .StoreFailure
      ∧ (fileCreate s root_id user_id filename content true).2.db = s.db
      ∧ ∀ k, Storage.readQ (fileCreate s root_id user_id filename content true).2.storage
          (rawRoot user_id dir_root (lastComponent filename)) k = false)
    ∧ (∀ (s : Sys) (root_id user_id : Nat) (dirname : String) (dir_root : String),
      (userRead s.users user_id).isNone = false →
      resolveDirRoot s.db root_id user_id = some dir_root →
      dbReaderCall s.db (some user_id) none none (some (dir_root, dirname)) = none →
      validName dirname = true →
      (dirCreate s root_id user_id dirname true).1 = .error .StoreFailure
      ∧ (dirCreate s root_id user_id dirname true).2.db = s.db
      ∧ ∀ k, Storage.readQ (dirCreate s root_id user_id dirname true).2.storage
          (rawRoot user_id dir_root dirname) k = false) := by
  constructor
  · intro s root_id user_id filename content dir_root hu hres hslot hv
    have hshape : ∃ st : Storage, fileCreate s root_id user_id filename content true =
        (.error .StoreFailure,
         { s with storage :=
             Storage.destroyQ st (rawRoot user_id dir_root (lastComponent filename)) }) := by
      unfold fileCreate
      simp only [hu, hres, hv, Bool.false_eq_true, if_false, Bool.not_true]
      cases hA : dbReaderCall s.db (some user_id) none none
          (some (dir_root, lastComponent filename)) with
      | some i =>
        simp only [hA, hslot i hA, Bool.and_false, Bool.false_eq_true, if_false]
        exact ⟨_, rfl⟩
      | none =>
        simp only [hA]
        exact ⟨_, rfl⟩
    obtain ⟨st, hE⟩ := hshape
    rw [hE]
    exact ⟨rfl, rfl, fun k => readQ_destroyQ_self _ _ k⟩
  · intro s root_id user_id dirname dir_root hu hres hslot hv
    have hshape : ∃ st : Storage, dirCreate s root_id user_id dirname true =
        (.error .StoreFailure,
         { s with storage := Storage.destroyQ st (rawRoot user_id dir_root dirname) }) := by
      unfold dirCreate
      simp only [hu, hres, hslot, hv, Bool.false_eq_true, if_false, Bool.not_true]
      exact ⟨_, rfl⟩
    obtain ⟨st, hE⟩ := hshape
    rw [hE]
    exact ⟨rfl, rfl, fun k => readQ_destroyQ_self _ _ k⟩

/-- Claim C3 (amended): renaming a directory rewrites each same-owner
descendant's parent path by substituting every occurrence of the old prefix
`old_root ++ old_name ++ "/"` with the new one (SQL `replace` semantics,
left to right, non-overlapping); for a descendant whose remaining path does
not again contain the old prefix this is exactly the leading-prefix rewrite,
and every other record of the owner is untouched. -/
theorem claim_C3_amended (db : DB) (new_name : String) (user_id data_id : Nat)
    (d : DataInfo) (dst src : String)
    (hdst : dst = d.root ++ d.name ++ "/") (hsrc : src = d.root ++ new_name ++ "/")
    (hfind : db.rows.find? (fun r => r.user_id == user_id && r.id == data_id) = some d)
    (hdir : d.is_dir = true) :
    ∃ d' db', dbUpdate db new_name user_id data_id = .ok (d', db')
      ∧ d'.name = new_name
      ∧ (∀ r ∈ db.rows, r.id ≠ data_id →
          ¬(r.user_id = user_id ∧ strStartsWith r.root dst = true) →
          r ∈ db'.rows)
      ∧ (∀ r ∈ db.rows, ∀ tail : String, r.id ≠ data_id → r.user_id = user_id →
          r.root = dst ++ tail →
          ({ r with root := strReplace r.root dst src } ∈ db'.rows
           ∧ (containsSubStr tail dst = false →
              { r with root := src ++ tail } ∈ db'.rows))) := by
  subst hdst hsrc
  have hE : dbUpdate db new_name user_id data_id
      = .ok ({ d with name := new_name },
             { db with rows := db.rows.map (fun r =>
                 let r1 := if r.id == data_id && r.user_id == user_id
                           then { r with name := new_name } else r
                 if d.is_dir && (r1.user_id == user_id
                     && strStartsWith r1.root (d.root ++ d.name ++ "/")) then
                   { r1 with
                     root := strReplace r1.root (d.root ++ d.name ++ "/") (d.root ++ new_name ++ "/") }
                 else r1) }) := by
    unfold dbUpdate
    simp only [hfind]
  refine ⟨{ d with name := new_name }, _, hE, rfl, ?_, ?_⟩
  · intro r hr hid hnot
    have hfr : (let r1 := if r.id == data_id && r.user_id == user_id
                          then { r with name := new_name } else r
                if d.is_dir && (r1.user_id == user_id
                    && strStartsWith r1.root (d.root ++ d.name ++ "/")) then
                  { r1 with
                    root := strReplace r1.root (d.root ++ d.name ++ "/") (d.root ++ new_name ++ "/") }
                else r1) = r := by
      by_cases hru : r.user_id = user_id
      · have hsw : strStartsWith r.root (d.root ++ d.name ++ "/") = false := by
          cases hsw0 : strStartsWith r.root (d.root ++ d.name ++ "/")
          · rfl
          · exact absurd ⟨hru, hsw0⟩ hnot
        simp [hid, hru, hsw]
      · simp [hid, hru]
    rw [← hfr]
    exact List.mem_map_of_mem _ hr
  · intro r hr tail hid hru hroot
    have hsw : strStartsWith r.root (d.root ++ d.name ++ "/") = true := by
      rw [hroot]
      unfold strStartsWith
      rw [strData_append]
      exact isPrefOf_append_self _ _
    have hfr : (let r1 := if r.id == data_id && r.user_id == user_id
                          then { r with name := new_name } else r
                if d.is_dir && (r1.user_id == user_id
                    && strStartsWith r1.root (d.root ++ d.name ++ "/")) then
                  { r1 with
                    root := strReplace r1.root (d.root ++ d.name ++ "/") (d.root ++ new_name ++ "/") }
                else r1)
        = { r with
            root := strReplace r.root (d.root ++ d.name ++ "/") (d.root ++ new_name ++ "/") } := by
      simp [hid, hru, hdir, hsw]
    have hmem1 : ({ r with
        root := strReplace r.root (d.root ++ d.name ++ "/") (d.root ++ new_name ++ "/") } : DataInfo)
        ∈ (db.rows.map (fun r =>
            let r1 := if r.id == data_id && r.user_id == user_id
                      then { r with name := new_name } else r
            if d.is_dir && (r1.user_id == user_id
                && strStartsWith r1.root (d.root ++ d.name ++ "/")) then
              { r1 with
                root := strReplace r1.root (d.root ++ d.name ++ "/") (d.root ++ new_name ++ "/") }
            else r1)) := by
      rw [← hfr]
      exact List.mem_map_of_mem _ hr
    refine ⟨hmem1, ?_⟩
    intro hc
    have hdne : (d.root ++ d.name ++ "/").data ≠ [] := by
      rw [strData_append]
      simp
    have hrep : strReplace r.root (d.root ++ d.name ++ "/") (d.root ++ new_name ++ "/")
        = (d.root ++ new_name ++ "/") ++ tail := by
      rw [hroot]
      exact strReplace_lead _ _ _ hdne hc
    rw [← hrep]
    exact hmem1

/-- The metadata creator never raises the policy error. -/
theorem dbCreate_ne_perm (db : DB) (f : DataInfoCreate) :
    dbCreate db f ≠ .error .PermissionDenied := by
  unfold dbCreate
  split <;> simp

/-- The size autoupdate never raises the policy error. -/
theorem updateFileAutomatic_ne_perm (db : DB) (i sz : Nat) :
    updateFileAutomatic db i sz ≠ .error .PermissionDenied := by
  unfold updateFileAutomatic
  split <;> simp

/-- The metadata updator never raises the policy error. -/
theorem dbUpdate_ne_perm (db : DB) (nn : String) (u i : Nat) :
    dbUpdate db nn u i ≠ .error .PermissionDenied := by
  unfold dbUpdate
  split <;> simp

/-- The metadata destroyer never raises the policy error. -/
theorem dbDestroy_ne_perm (db : DB) (i : Nat) :
    dbDestroy db i ≠ .error .PermissionDenied := by
  unfold dbDestroy
  split <;> simp

/-- Size synchronisation never raises the policy error. -/
theorem syncFileSize_ne_perm (db : DB) (i : Nat) (r : Option Nat) :
    syncFileSize db i r ≠ .error .PermissionDenied := by
  unfold syncFileSize
  split
  · simp
  · split
    · simp
    · split <;> simp

/-- The file create manager never raises the policy error. -/
theorem fileCreate_no_perm {s : Sys} {a b : Nat} {fn : String} {c : Nat} {df : Bool}
    {s1 : Sys} (h : fileCreate s a b fn c df = (.error .PermissionDenied, s1)) : False := by
  unfold fileCreate at h
  split at h
  · simp at h
  cases hr : resolveDirRoot s.db a b with
  | none =>
    rw [hr] at h
    simp at h
  | some dir_root =>
    rw [hr] at h
    simp only at h
    cases hA : dbReaderCall s.db (some b) none none (some (dir_root, lastComponent fn)) with
    | some i =>
      rw [hA] at h
      simp only at h
      split at h
      · simp at h
      split at h
      · simp at h
      split at h
      · rename_i e2 heq
        have he : e2 = .PermissionDenied := by
          injection h with h1 h2
          injection h1
        rw [he] at heq
        split at heq
        · simp at heq
        split at heq
        · exact updateFileAutomatic_ne_perm _ _ _ heq
        · exact dbCreate_ne_perm _ _ heq
      · simp at h
    | none =>
      rw [hA] at h
      simp only at h
      split at h
      · simp at h
      split at h
      · simp at h
      split at h
      · rename_i e2 heq
        have he : e2 = .PermissionDenied := by
          injection h with h1 h2
          injection h1
        rw [he] at heq
        split at heq
        · simp at heq
        split at heq
        · exact updateFileAutomatic_ne_perm _ _ _ heq
        · exact dbCreate_ne_perm _ _ heq
      · simp at h

/-- The directory create manager never raises the policy error. -/
theorem dirCreate_no_perm {s : Sys} {a b : Nat} {dn : String} {df : Bool}
    {s1 : Sys} (h : dirCreate s a b dn df = (.error .PermissionDenied, s1)) : False := by
  unfold dirCreate at h
  split at h
  · simp at h
  cases hr : resolveDirRoot s.db a b with
  | none =>
    rw [hr] at h
    simp at h
  | some dir_root =>
    rw [hr] at h
    simp only at h
    split at h
    · simp at h
    split at h
    · simp at h
    split at h
    · rename_i e2 heq
      have he : e2 = .PermissionDenied := by
        injection h with h1 h2
        injection h1
      rw [he] at heq
      split at heq
      · simp at heq
      · exact dbCreate_ne_perm _ _ heq
    · simp at h

/-- The file rename manager never raises the policy error. -/
theorem fileUpdate_no_perm {s : Sys} {a b : Nat} {nn : String} {s1 : Sys}
    (h : fileUpdate s a b nn = (.error .PermissionDenied, s1)) : False := by
  unfold fileUpdate at h
  split at h
  · simp at h
  cases hA : dbReaderCall s.db (some a) (some false) (some b) none with
  | none =>
    rw [hA] at h
    simp at h
  | some data =>
    rw [hA] at h
    simp only at h
    split at h
    · simp at h
    cases hU : Storage.updateQ s.storage
        (SERVER_storage ++ "/storage/" ++ natStr a ++ "/root" ++ data.root ++ data.name) nn with
    | error u =>
      rw [hU] at h
      simp at h
    | ok p =>
      rw [hU] at h
      obtain ⟨po, pst⟩ := p
      cases po with
      | none =>
        simp only at h
        cases hD : dbDestroy s.db b with
        | ok o =>
          rw [hD] at h
          simp at h
        | error e =>
          rw [hD] at h
          have he : e = Err.PermissionDenied := by
            injection h with h1 h2
            injection h1
          rw [he] at hD
          exact dbDestroy_ne_perm _ _ hD
      | some np =>
        simp only at h
        cases hup : dbUpdate s.db nn a b with
        | ok o =>
          rw [hup] at h
          simp at h
        | error e =>
          rw [hup] at h
          simp only at h
          cases hrb : Storage.updateQ pst
              (SERVER_storage ++ "/storage/" ++ natStr a ++ "/root" ++ data.root ++ nn) data.name with
          | ok o2 =>
            rw [hrb] at h
            have he : e = Err.PermissionDenied := by
              injection h with h1 h2
              injection h1
            rw [he] at hup
            exact dbUpdate_ne_perm _ _ _ _ hup
          | error u2 =>
            rw [hrb] at h
            simp at h

/-- The directory rename manager never raises the policy error. -/
theorem dirUpdate_no_perm {s : Sys} {a b : Nat} {nn : String} {s1 : Sys}
    (h : dirUpdate s a b nn = (.error .PermissionDenied, s1)) : False := by
  unfold dirUpdate at h
  split at h
  · simp at h
  cases hA : dbReaderCall s.db (some a) none (some b) none with
  | none =>
    rw [hA] at h
    simp at h
  | some data =>
    rw [hA] at h
    simp only at h
    split at h
    · simp at h
    cases hU : Storage.updateQ s.storage
        (SERVER_storage ++ "/storage/" ++ natStr a ++ "/root" ++ data.root ++ data.name) nn with
    | error u =>
      rw [hU] at h
      simp at h
    | ok p =>
      rw [hU] at h
      obtain ⟨po, pst⟩ := p
      cases po with
      | none =>
        simp only at h
        cases hD : dbDestroy s.db b with
        | ok o =>
          rw [hD] at h
          simp at h
        | error e =>
          rw [hD] at h
          have he : e = Err.PermissionDenied := by
            injection h with h1 h2
            injection h1
          rw [he] at hD
          exact dbDestroy_ne_perm _ _ hD
      | some np =>
        simp only at h
        cases hup : dbUpdate s.db nn a b with
        | ok o =>
          rw [hup] at h
          simp at h
        | error e =>
          rw [hup] at h
          simp only at h
          cases hrb : Storage.updateQ pst
              (SERVER_storage ++ "/storage/" ++ natStr a ++ "/root" ++ data.root ++ nn) data.name with
          | ok o2 =>
            rw [hrb] at h
            have he : e = Err.PermissionDenied := by
              injection h with h1 h2
              injection h1
            rw [he] at hup
            exact dbUpdate_ne_perm _ _ _ _ hup
          | error u2 =>
            rw [hrb] at h
            simp at h

/-- The deletion body never raises the policy error. -/
theorem crudDestroy_no_perm {s : Sys} {a b : Nat} {s1 : Sys}
    (h : crudDestroy s a b = (.error .PermissionDenied, s1)) : False := by
  unfold crudDestroy at h
  cases hD : dbDestroy s.db b with
  | ok o =>
    rw [hD] at h
    simp at h
  | error e =>
    rw [hD] at h
    have he : e = Err.PermissionDenied := by
      injection h with h1 h2
      injection h1
    rw [he] at hD
    exact dbDestroy_ne_perm _ _ hD

/-- Once the policy gate has passed, the orchestrator read never raises the policy error. -/
theorem managerRead_no_perm {s : Sys} {u : UserRec} {issue : String}
    {user_id data_id : Nat} {mode : String} {s1 : Sys}
    (hperm : permCheck issue u.is_admin u.id user_id = true)
    (h : managerRead s (some u) issue user_id data_id mode
        = (.error .PermissionDenied, s1)) : False := by
  unfold managerRead at h
  simp only at h
  rw [hperm] at h
  simp only [Bool.not_true, Bool.false_eq_true, if_false] at h
  split at h
  · simp at h
  cases hA : dbReaderCall s.db (some user_id) none (some data_id) none with
  | none =>
    rw [hA] at h
    simp at h
  | some info =>
    rw [hA] at h
    simp only at h
    split at h
    · cases hD : dbDestroy s.db info.id with
      | ok o =>
        rw [hD] at h
        simp at h
      | error e =>
        rw [hD] at h
        have he : e = Err.PermissionDenied := by
          injection h with h1 h2
          injection h1
        rw [he] at hD
        exact dbDestroy_ne_perm _ _ hD
    · split at h
      · rename_i e2 heq
        have he : e2 = Err.PermissionDenied := by
          injection h with h1 h2
          injection h1
        rw [he] at heq
        split at heq
        · exact syncFileSize_ne_perm _ _ _ heq
        · simp at heq
      · simp at h

/-- Claim C6: every orchestrator entry point (create, read, update, destroy)
is permitted iff `Authenticated AND (IsAdmin OR (NOT IsAdmin AND IsOwner))`
holds for the requesting identity; when the composite fails the call returns
`PermissionDenied` with the state untouched and without consulting either
store, so a denied caller observes the same outcome whether or not the
target exists; when the composite holds, `PermissionDenied` is never
raised. -/
theorem claim_C6 (s : Sys) (u : UserRec) (issue : String) (user_id data_id : Nat)
    (rf : Option (String × Nat)) (rd : Option String) (df : Bool) (nn mode : String) :
    ((permCheck issue u.is_admin u.id user_id = false →
        managerCreate s (some u) issue user_id data_id rf rd df
          = (.error .PermissionDenied, s))
     ∧ (permCheck issue u.is_admin u.id user_id = true →
        (managerCreate s (some u) issue user_id data_id rf rd df).1
          ≠ .error .PermissionDenied))
    ∧ ((permCheck issue u.is_admin u.id user_id = false →
        managerRead s (some u) issue user_id data_id mode
          = (.error .PermissionDenied, s))
     ∧ (permCheck issue u.is_admin u.id user_id = true →
        (managerRead s (some u) issue user_id data_id mode).1
          ≠ .error .PermissionDenied))
    ∧ ((permCheck issue u.is_admin u.id user_id = false →
        managerUpdate s (some u) issue user_id data_id nn
          = (.error .PermissionDenied, s))
     ∧ (permCheck issue u.is_admin u.id user_id = true →
        (managerUpdate s (some u) issue user_id data_id nn).1
          ≠ .error .PermissionDenied))
    ∧ ((permCheck issue u.is_admin u.id user_id = false →
        managerDestroy s (some u) issue user_id data_id
          = (.error .PermissionDenied, s))
     ∧ (permCheck issue u.is_admin u.id user_id = true →
        (managerDestroy s (some u) issue user_id data_id).1
          ≠ .error .PermissionDenied)) := by
  refine ⟨⟨?_, ?_⟩, ⟨?_, ?_⟩, ⟨?_, ?_⟩, ⟨?_, ?_⟩⟩
  · intro hp
    unfold managerCreate
    simp [hp]
  · intro hp hcontra
    unfold managerCreate at hcontra
    simp only at hcontra
    rw [hp] at hcontra
    simp only [Bool.not_true, Bool.false_eq_true, if_false] at hcontra
    cases rf with
    | some f =>
      simp only at hcontra
      cases hfc : fileCreate s data_id user_id f.1 f.2 df with
      | mk r1 s1 =>
        rw [hfc] at hcontra
        cases r1 with
        | error e =>
          simp only at hcontra
          have he : e = Err.PermissionDenied := by injection hcontra
          rw [he] at hfc
          exact fileCreate_no_perm hfc
        | ok i => simp at hcontra
    | none =>
      simp only at hcontra
      cases rd with
      | some dn =>
        simp only at hcontra
        by_cases hdn : dn ≠ ""
        · rw [if_pos hdn] at hcontra
          cases hdc : dirCreate s data_id user_id dn df with
          | mk r1 s1 =>
            rw [hdc] at hcontra
            cases r1 with
            | error e =>
              simp only at hcontra
              have he : e = Err.PermissionDenied := by injection hcontra
              rw [he] at hdc
              exact dirCreate_no_perm hdc
            | ok i => simp at hcontra
        · rw [if_neg hdn] at hcontra
          simp at hcontra
      | none => simp at hcontra
  · intro hp
    unfold managerRead
    simp [hp]
  · intro hp hcontra
    cases hmr : managerRead s (some u) issue user_id data_id mode with
    | mk r1 s1 =>
      rw [hmr] at hcontra
      cases r1 with
      | error e =>
        simp only at hcontra
        rw [hcontra] at hmr
        exact managerRead_no_perm hp hmr
      | ok res => simp at hcontra
  · intro hp
    unfold managerUpdate
    simp [hp]
  · intro hp hcontra
    unfold managerUpdate at hcontra
    simp only at hcontra
    rw [hp] at hcontra
    simp only [Bool.not_true, Bool.false_eq_true, if_false] at hcontra
    cases hA : dbReaderCall s.db (some user_id) none (some data_id) none with
    | none =>
      rw [hA] at hcontra
      simp at hcontra
    | some target =>
      rw [hA] at hcontra
      simp only at hcontra
      cases htd : target.is_dir with
      | true =>
        rw [htd] at hcontra
        simp only [if_true] at hcontra
        cases hdu : dirUpdate s user_id data_id nn with
        | mk r1 s1 =>
          rw [hdu] at hcontra
          cases r1 with
          | error e =>
            simp only at hcontra
            have he : e = Err.PermissionDenied := by injection hcontra
            rw [he] at hdu
            exact dirUpdate_no_perm hdu
          | ok res => simp at hcontra
      | false =>
        rw [htd] at hcontra
        simp only [Bool.false_eq_true, if_false] at hcontra
        cases hdu : fileUpdate s user_id data_id nn with
        | mk r1 s1 =>
          rw [hdu] at hcontra
          cases r1 with
          | error e =>
            simp only at hcontra
            have he : e = Err.PermissionDenied := by injection hcontra
            rw [he] at hdu
            exact fileUpdate_no_perm hdu
          | ok res => simp at hcontra
  · intro hp
    unfold managerDestroy
    simp [hp]
  · intro hp hcontra
    unfold managerDestroy at hcontra
    simp only at hcontra
    rw [hp] at hcontra
    simp only [Bool.not_true, Bool.false_eq_true, if_false] at hcontra
    cases hA : dbReaderCall s.db (some user_id) none (some data_id) none with
    | none =>
      rw [hA] at hcontra
      simp at hcontra
    | some target =>
      rw [hA] at hcontra
      simp only at hcontra
      cases hcd : crudDestroy s user_id data_id with
      | mk r1 s1 =>
        rw [hcd] at hcontra
        cases r1 with
        | error e =>
          simp only at hcontra
          rw [hcontra] at hcd
          exact crudDestroy_no_perm hcd
        | ok res => simp at hcontra

/-- Claim C10: an orchestrator create that passes the permission check but
carries neither a file payload nor a directory name returns an empty result
(`None`) without raising and without modifying either store. -/
theorem claim_C10 (s : Sys) (u : UserRec) (issue : String) (user_id data_id : Nat)
    (dbFail : Bool) (hperm : permCheck issue u.is_admin u.id user_id = true) :
    managerCreate s (some u) issue user_id data_id none none dbFail = (.ok none, s) := by
  unfold managerCreate
  simp [hperm]

/-- Witness for C10 at a concrete state. -/
theorem claim_C10_witness :
    permCheck "login" adminU.is_admin adminU.id 1 = true
    ∧ managerCreate sysFresh (some adminU) "login" 1 0 none none false = (.ok none, sysFresh) :=
  ⟨by decide, claim_C10 sysFresh adminU "login" 1 0 false (by decide)⟩

/-- Claim C7: evaluation at the failing input. The spec requires a non-zero
parent id to resolve only to a directory record owned by the requesting
owner; because `DataDBQueryReader.__call__` discards the owner filter it
builds (lines 120-121), user 1's directory create under the id of user 2's
directory resolves and succeeds instead of failing `NotFound`. -/
theorem claim_C7 :
    (dbReaderCall sysCross.db (some 1) (some true) (some 1) none).map (fun r => r.user_id)
      = some 2
    ∧ errOf (dirCreate sysCross 1 1 "x" false).1 = none
    ∧ ((dirCreate sysCross 1 1 "x" false).1.toOption.map (fun r => r.root)) = some "/d/" := by
  decide

/-- Claim C8: evaluation at the failing input. With an `is_dir=False` filter
supplied, the reader returns a directory record found at the slot (the
`if is_dir:` guard at line 137 treats `False` like `None`), although the
docstring and the spec say a wrong-kind match must read as not found; the
`True` filter does exclude a wrong-kind match. -/
theorem claim_C8 :
    dbReaderCall dbMixed (some 1) (some false) none (some ("/", "d")) = some recD
    ∧ dbReaderCall dbFileOnly (some 1) (some true) none (some ("/", "f")) = none := by
  decide

/-- Counterexample to C1 as stated: at a slot already occupied by a file
record, a create whose metadata commit is made to fail removes the physical
object but the pre-existing metadata record remains at the slot, so it is
not true that afterwards neither a metadata record nor a physical object
exists there. -/
theorem claim_C1_counterexample :
    errOf (fileCreate sysOverwrite 0 1 "f" 5 true).1 = some Err.StoreFailure
    ∧ dbReaderCall (fileCreate sysOverwrite 0 1 "f" 5 true).2.db
        (some 1) none none (some ("/", "f")) = some recF
    ∧ Storage.readQ (fileCreate sysOverwrite 0 1 "f" 5 true).2.storage
        (rawRoot 1 "/" "f") false = false := by
  decide

/-- Witness for the amended C1 at a concrete fresh create. -/
theorem claim_C1_witness :
    ((userRead sysFresh.users 1).isNone = false
     ∧ resolveDirRoot sysFresh.db 0 1 = some "/"
     ∧ validName (lastComponent "f") = true)
    ∧ (fileCreate sysFresh 0 1 "f" 5 true).1 = .error .StoreFailure
    ∧ (fileCreate sysFresh 0 1 "f" 5 true).2.db = sysFresh.db
    ∧ Storage.readQ (fileCreate sysFresh 0 1 "f" 5 true).2.storage
        (rawRoot 1 "/" (lastComponent "f")) false = false := by
  have h := claim_C1_amended.1 sysFresh 0 1 "f" 5 "/" (by decide) (by decide)
      (by
        intro i hi
        rw [show dbReaderCall sysFresh.db (some 1) none none
            (some ("/", lastComponent "f")) = none from rfl] at hi
        exact Option.noConfusion hi)
      (by decide)
  exact ⟨⟨by decide, by decide, by decide⟩, h.1, h.2.1, h.2.2 false⟩

/-- Witness for C2 at a concrete stale state. -/
theorem claim_C2_witness :
    (permCheck "login" adminU.is_admin adminU.id 1 = true
     ∧ dbReaderCall sysStale.db (some 1) none (some 5) none = some recF5
     ∧ Storage.readQ sysStale.storage (rawRoot 1 recF5.root recF5.name) recF5.is_dir = false)
    ∧ (managerRead sysStale (some adminU) "login" 1 5 "info").1 = .error .DataNotFound
    ∧ dbReaderCall (managerRead sysStale (some adminU) "login" 1 5 "info").2.db
        (some 1) none (some 5) none = none
    ∧ (managerRead (managerRead sysStale (some adminU) "login" 1 5 "info").2
        (some adminU) "login" 1 5 "info").1 = .error .DataNotFound := by
  have h := claim_C2 sysStale adminU "login" 1 5 "info" recF5
      (by decide) (by decide) (by decide) (by decide)
  exact ⟨⟨by decide, by decide, by decide⟩, h.1, h.2.1, h.2.2⟩

/-- Counterexample to C3 as stated: renaming directory `x` (at the root) to
`y` rewrites the descendant parent path `/x/ab/x/` to `/y/ab/y/` — the SQL
`replace` also rewrites the second, interior occurrence of `/x/`, so the
remainder of the parent path does not stay unchanged (it should have become
`/y/ab/x/`). -/
theorem claim_C3_counterexample :
    ((dbUpdate dbNest "y" 1 1).toOption.map (fun o => o.2.rows.map (fun r => r.root)))
      = some ["/", "/y/ab/y/"]
    ∧ "/y/ab/y/" ≠ "/y/ab/x/" := by
  decide

/-- Witness for the amended C3 at a concrete rename. -/
theorem claim_C3_witness :
    (dbPlain.rows.find? (fun r => r.user_id == 1 && r.id == 1)
       = some { id := 1, user_id := 1, name := "x", root := "/", is_dir := true,
                size := 0, created := 0 })
    ∧ ∃ d' db', dbUpdate dbPlain "y" 1 1 = .ok (d', db')
        ∧ d'.name = "y"
        ∧ { id := 2, user_id := 1, name := "g", root := "/y/q/", is_dir := false,
            size := 0, created := 0 } ∈ db'.rows := by
  refine ⟨by decide, ?_⟩
  obtain ⟨d', db', hE, hname, hun, hdesc⟩ := claim_C3_amended dbPlain "y" 1 1
      { id := 1, user_id := 1, name := "x", root := "/", is_dir := true,
        size := 0, created := 0 }
      "/x/" "/y/" (by decide) (by decide) (by decide) (by decide)
  refine ⟨d', db', hE, hname, ?_⟩
  have h2 := (hdesc
      { id := 2, user_id := 1, name := "g", root := "/x/q/", is_dir := false,
        size := 0, created := 0 }
      (by decide) "q/" (by decide) (by decide) (by decide)).2 (by decide)
  exact h2

/-- Witness for C4 at a concrete drifted state. -/
theorem claim_C4_witness :
    (permCheck "login" adminU.is_admin adminU.id 1 = true
     ∧ dbReaderCall sysDrift.db (some 1) none (some 5) none = some recF5
     ∧ recF5.is_dir = false
     ∧ Storage.lookup sysDrift.storage (rawRoot 1 recF5.root recF5.name) = some (.file 7))
    ∧ (∃ res, (managerRead sysDrift (some adminU) "login" 1 5 "info").1 = .ok res
        ∧ res.size = 7)
    ∧ (managerRead sysDrift (some adminU) "login" 1 5 "info").2.db.rows.find?
        (fun r => r.id == 5) = some { recF5 with size := 7 } := by
  have h := claim_C4 sysDrift adminU "login" 1 5 "info" recF5 7
      (by decide) (by decide) (by decide) (by decide) (by decide)
  exact ⟨⟨by decide, by decide, by decide, by decide⟩, h.1, h.2⟩

/-- Witness for C5 at a concrete re-upload. -/
theorem claim_C5_witness :
    (dbReaderCall sysSlot.db (some 1) none none (some ("/", lastComponent "f")) = some recF5
     ∧ recF5.is_dir = false
     ∧ fileCreate sysSlot 0 1 "f" 9 false = (.ok { recF5 with size := 9 }, sysSlotAfter))
    ∧ ({ recF5 with size := 9 } : DataInfo).id = recF5.id
    ∧ sysSlotAfter.db.rows = sysSlot.db.rows.map (fun r =>
        if r.id == recF5.id then { r with size := 9 } else r)
    ∧ (sysSlotAfter.db.rows.filter (fun r =>
          r.user_id == 1 && r.root == "/" && r.name == lastComponent "f")).length
      = (sysSlot.db.rows.filter (fun r =>
          r.user_id == 1 && r.root == "/" && r.name == lastComponent "f")).length := by
  have h := claim_C5 sysSlot 0 1 "f" 9 recF5 { recF5 with size := 9 } sysSlotAfter "/"
      (by decide) (by decide) (by decide) (by decide) (by decide) (by decide)
  exact ⟨⟨by decide, by decide, by decide⟩, h.1, h.2.1,
    h.2.2 (fun r => r.user_id == 1 && r.root == "/" && r.name == lastComponent "f")
      (fun r => rfl)⟩

/-- Witness for C6: a non-admin operator acting on another tenant is denied
by all four entry points with the state untouched. -/
theorem claim_C6_witness :
    permCheck "login" clientU.is_admin clientU.id 1 = false
    ∧ managerCreate sysFresh (some clientU) "login" 1 0 none none false
        = (.error .PermissionDenied, sysFresh)
    ∧ managerRead sysFresh (some clientU) "login" 1 0 "info"
        = (.error .PermissionDenied, sysFresh)
    ∧ managerUpdate sysFresh (some clientU) "login" 1 0 "n2"
        = (.error .PermissionDenied, sysFresh)
    ∧ managerDestroy sysFresh (some clientU) "login" 1 0
        = (.error .PermissionDenied, sysFresh) := by
  have h := claim_C6 sysFresh clientU "login" 1 0 none none false "n2" "info"
  exact ⟨by decide, h.1.1 (by decide), h.2.1.1 (by decide), h.2.2.1.1 (by decide),
    h.2.2.2.1 (by decide)⟩

/-- Witness for C9 at a concrete upload of `a/b/c.txt`. -/
theorem claim_C9_witness :
    (dbIdsNodup sysFresh.db
     ∧ fileCreate sysFresh 0 1 "a/b/c.txt" 4 false
        = (.ok { id := 1, user_id := 1, name := "c.txt", root := "/", is_dir := false,
                 size := 4, created := 0 },
           { users := [adminU],
             db := { rows := [{ id := 1, user_id := 1, name := "c.txt", root := "/",
                                is_dir := false, size := 4, created := 0 }], nextId := 2 },
             storage := { objs := [(rawRoot 1 "/" "c.txt", PhysEntry.file 4)] } }))
    ∧ ({ id := 1, user_id := 1, name := "c.txt", root := "/", is_dir := false,
         size := 4, created := 0 } : DataInfo).name = lastComponent "a/b/c.txt" :=
  ⟨⟨by decide, by decide⟩,
   claim_C9 sysFresh 0 1 "a/b/c.txt" 4 false
     { id := 1, user_id := 1, name := "c.txt", root := "/", is_dir := false,
       size := 4, created := 0 }
     { users := [adminU],
       db := { rows := [{ id := 1, user_id := 1, name := "c.txt", root := "/",
                          is_dir := false, size := 4, created := 0 }], nextId := 2 },
       storage := { objs := [(rawRoot 1 "/" "c.txt", PhysEntry.file 4)] } }
     (by decide) (by decide)⟩
